import Mathlib

/-!
# Verification of the boids screensaver simulation core (src/boids.c)

Shallow embedding of the simulation and mode-scheduling engine of the
boids screensaver.  C `float`/`double` arithmetic is modelled by real
numbers; C `int`/`time_t` by `ℤ` (or `ℕ` for array indices); the X11
display, event and timing layer is modelled by explicit parameters
(current wall-clock time, the list of pending key events, the stream of
`rand()` draws).  The global boid array becomes a `List Boid`, updated
in place sequentially exactly as the C `for` loop does.
-/

noncomputable section

open Real

/-! ## Compile-time constants (src/boids.c lines 22-36) -/

def NUM_BOIDS : ℕ := 500

def MAX_SPEED : ℝ := 4.0

def NEIGHBOR_RADIUS : ℝ := 50

def ALIGNMENT_WEIGHT : ℝ := 0.05

def COHESION_WEIGHT : ℝ := 0.01

def SEPARATION_WEIGHT : ℝ := 0.15

def PATTERN_FORCE : ℝ := 0.2

def PATTERN_SEPARATION_WEIGHT : ℝ := 0.001

/-- The source's `PI` literal `3.14159265358979323846` denotes the
mathematical constant π in this real-arithmetic model. -/
def PI : ℝ := Real.pi

/-- Auto-mode dwell time in `MODE_NORMAL`, seconds (`BOIDS_TIME`). -/
def BOIDS_TIME : ℤ := 30

/-- Auto-mode dwell time in a pattern mode, seconds (`PATTERN_TIME`). -/
def PATTERN_TIME : ℤ := 35

/-! ## Data model (src/boids.c lines 38-62) -/

/-- The `Boid` struct: position, velocity, (unused after init) target,
and the stable identity index. -/
structure Boid where
  x : ℝ
  y : ℝ
  vx : ℝ
  vy : ℝ
  target_x : ℝ
  target_y : ℝ
  index : ℕ

instance : Inhabited Boid := ⟨⟨0, 0, 0, 0, 0, 0, 0⟩⟩

/-- The `FlockingMode` enum, values in source order
(`MODE_NORMAL = 0` … `MODE_CARDIOID = 8`). -/
inductive FlockingMode where
  | normal
  | lissajous
  | rose
  | hypocycloid
  | butterfly
  | maurer_rose
  | spirograph
  | fermat_spiral
  | cardioid
deriving DecidableEq, Repr

/-- `last_pattern_mode` is initialised to `MODE_LISSAJOUS`
(src/boids.c line 62). -/
def initial_last_pattern_mode : FlockingMode := FlockingMode.lissajous

/-! ## Curve library (src/boids.c lines 64-163) -/

/-- `get_scale_factor`: `fmin(width, height) * 0.3` with the integer
viewport dimensions promoted to floating point. -/
def get_scale_factor (width height : ℤ) : ℝ :=
  min (width : ℝ) (height : ℝ) * 0.3

/-- `calculate_lissajous_position`.  `width/2` and `height/2` are C
integer divisions, performed before the promotion to float. -/
def calculate_lissajous_position (t : ℝ) (width height : ℤ) : ℝ × ℝ :=
  let scale := get_scale_factor width height
  let a : ℝ := 3
  let b : ℝ := 2
  (((width / 2 : ℤ) : ℝ) + scale * Real.sin (a * t),
   ((height / 2 : ℤ) : ℝ) + scale * Real.sin (b * t + PI / 2))

/-- `calculate_rose_position`. -/
def calculate_rose_position (t : ℝ) (width height : ℤ) : ℝ × ℝ :=
  let scale := get_scale_factor width height
  let k : ℝ := 3
  let r := scale * Real.sin (k * t)
  (((width / 2 : ℤ) : ℝ) + r * Real.cos t,
   ((height / 2 : ℤ) : ℝ) + r * Real.sin t)

/-- `calculate_hypocycloid_position`. -/
def calculate_hypocycloid_position (t : ℝ) (width height : ℤ) : ℝ × ℝ :=
  let scale := get_scale_factor width height
  let R := scale
  let r := R / 4
  let d := r
  (((width / 2 : ℤ) : ℝ) + (R - r) * Real.cos t + d * Real.cos ((R - r) * t / r),
   ((height / 2 : ℤ) : ℝ) + (R - r) * Real.sin t - d * Real.sin ((R - r) * t / r))

/-- `calculate_butterfly_position`. -/
def calculate_butterfly_position (t : ℝ) (width height : ℤ) : ℝ × ℝ :=
  let scale := get_scale_factor width height
  let r := Real.exp (Real.cos t) - 2 * Real.cos (4 * t) + (Real.sin (t / 12)) ^ (5 : ℕ)
  (((width / 2 : ℤ) : ℝ) + scale / 2 * Real.sin t * r,
   ((height / 2 : ℤ) : ℝ) + scale / 2 * Real.cos t * r)

/-- `calculate_maurer_rose_position`. -/
def calculate_maurer_rose_position (t : ℝ) (width height : ℤ) : ℝ × ℝ :=
  let scale := get_scale_factor width height * 1.5
  let n : ℝ := 7
  let d : ℝ := 71
  let k := t * d
  let r := scale * (0.8 + 0.2 * Real.sin (n * k * PI / 180))
  (((width / 2 : ℤ) : ℝ) + r * Real.cos (k * PI / 180),
   ((height / 2 : ℤ) : ℝ) + r * Real.sin (k * PI / 180))

/-- `calculate_spirograph_position`. -/
def calculate_spirograph_position (t : ℝ) (width height : ℤ) : ℝ × ℝ :=
  let scale := get_scale_factor width height
  let R := scale * 0.8
  let r := R * 0.4
  let d := r * 0.8
  (((width / 2 : ℤ) : ℝ) + (R - r) * Real.cos t + d * Real.cos ((R - r) * t / r),
   ((height / 2 : ℤ) : ℝ) + (R - r) * Real.sin t - d * Real.sin ((R - r) * t / r))

/-- `calculate_fermat_spiral_position`. -/
def calculate_fermat_spiral_position (t : ℝ) (width height : ℤ) : ℝ × ℝ :=
  let scale := get_scale_factor width height
  let a := scale * 0.5
  let r := a * Real.sqrt t
  let angle := t * 5
  (((width / 2 : ℤ) : ℝ) + r * Real.cos angle,
   ((height / 2 : ℤ) : ℝ) + r * Real.sin angle)

/-- `calculate_cardioid_position`. -/
def calculate_cardioid_position (t : ℝ) (width height : ℤ) : ℝ × ℝ :=
  let scale := get_scale_factor width height
  let a := scale * 0.9
  let r := a * (1 + Real.cos t)
  (((width / 2 : ℤ) : ℝ) + r * Real.cos t,
   ((height / 2 : ℤ) : ℝ) + r * Real.sin t)

/-! ## Speed limiting (src/boids.c lines 74-80) -/

/-- Euclidean speed `sqrtf(vx*vx + vy*vy)`. -/
def speed (vx vy : ℝ) : ℝ := Real.sqrt (vx * vx + vy * vy)

/-- `limit_speed`: rescale the velocity to magnitude `MAX_SPEED` when it
exceeds `MAX_SPEED`, otherwise leave it unchanged. -/
def limit_speed (b : Boid) : Boid :=
  let s := Real.sqrt (b.vx * b.vx + b.vy * b.vy)
  if MAX_SPEED < s then
    { b with vx := b.vx / s * MAX_SPEED, vy := b.vy / s * MAX_SPEED }
  else b

/-! ## Flocking engine (src/boids.c lines 165-230 and 259-316) -/

/-- Distance `sqrtf(dx*dx + dy*dy)` between `b` and `o`, with
`dx = o.x - b.x`, `dy = o.y - b.y` as in every neighbor scan of the
source. -/
def distf (b o : Boid) : ℝ :=
  Real.sqrt ((o.x - b.x) * (o.x - b.x) + (o.y - b.y) * (o.y - b.y))

/-- `apply_separation_force`: scan the whole flock by array position
`j`, skipping `boid->index == j`; accumulate the negated offsets of
boids strictly within `NEIGHBOR_RADIUS/2` (and at positive distance),
and add the accumulator scaled by `weight` when any were found. -/
def apply_separation_force (b : Boid) (weight : ℝ) (flock : List Boid) : Boid :=
  let scan := flock.enum.foldl
    (fun (acc : ℝ × ℝ × ℕ) p =>
      if p.1 = b.index then acc
      else
        let dx := p.2.x - b.x
        let dy := p.2.y - b.y
        let dist := Real.sqrt (dx * dx + dy * dy)
        if dist < NEIGHBOR_RADIUS / 2 ∧ 0 < dist then
          (acc.1 - dx, acc.2.1 - dy, acc.2.2 + 1)
        else acc)
    (0, 0, 0)
  if 0 < scan.2.2 then
    { b with vx := b.vx + scan.1 * weight, vy := b.vy + scan.2.1 * weight }
  else b

/-- The curve target selected by `apply_pattern_force`'s `switch` on the
current mode; `none` models the `default: return` branch for
`MODE_NORMAL`. -/
def pattern_target (mode : FlockingMode) (t : ℝ) (width height : ℤ) :
    Option (ℝ × ℝ) :=
  match mode with
  | FlockingMode.normal => none
  | FlockingMode.lissajous => some (calculate_lissajous_position t width height)
  | FlockingMode.rose => some (calculate_rose_position t width height)
  | FlockingMode.hypocycloid => some (calculate_hypocycloid_position t width height)
  | FlockingMode.butterfly => some (calculate_butterfly_position t width height)
  | FlockingMode.maurer_rose => some (calculate_maurer_rose_position t width height)
  | FlockingMode.spirograph => some (calculate_spirograph_position t width height)
  | FlockingMode.fermat_spiral => some (calculate_fermat_spiral_position t width height)
  | FlockingMode.cardioid => some (calculate_cardioid_position t width height)

/-- `apply_pattern_force`: compute the curve parameter
`t = (float)(boid->index) / NUM_BOIDS * 10.0 + pattern_time`, steer
toward the curve target by `PATTERN_FORCE` when at positive distance
from it, then apply the light separation pass.  In `MODE_NORMAL`
(unreachable from `update_boids`) the function returns the boid
unchanged, as the `default: return`. -/
def apply_pattern_force (b : Boid) (mode : FlockingMode) (pattern_time : ℝ)
    (width height : ℤ) (flock : List Boid) : Boid :=
  let t := (b.index : ℝ) / (NUM_BOIDS : ℝ) * 10.0 + pattern_time
  match pattern_target mode t width height with
  | none => b
  | some target =>
      let dx := target.1 - b.x
      let dy := target.2 - b.y
      let dist := Real.sqrt (dx * dx + dy * dy)
      let b1 :=
        if 0 < dist then
          { b with vx := b.vx + dx / dist * PATTERN_FORCE,
                   vy := b.vy + dy / dist * PATTERN_FORCE }
        else b
      apply_separation_force b1 PATTERN_SEPARATION_WEIGHT flock

/-- Accumulator of the normal-mode neighbor scan: the local variables
`avg_vx, avg_vy, center_x, center_y, avoid_x, avoid_y, count` of
`update_boids`. -/
structure NAcc where
  avg_vx : ℝ
  avg_vy : ℝ
  center_x : ℝ
  center_y : ℝ
  avoid_x : ℝ
  avoid_y : ℝ
  count : ℕ

/-- One iteration of the normal-mode neighbor scan loop
(src/boids.c lines 267-283) over a single other boid `o`. -/
def normal_scan_step (b : Boid) (a : NAcc) (o : Boid) : NAcc :=
  let dx := o.x - b.x
  let dy := o.y - b.y
  let dist := Real.sqrt (dx * dx + dy * dy)
  if dist < NEIGHBOR_RADIUS ∧ 0 < dist then
    { avg_vx := a.avg_vx + o.vx
      avg_vy := a.avg_vy + o.vy
      center_x := a.center_x + o.x
      center_y := a.center_y + o.y
      avoid_x := if dist < NEIGHBOR_RADIUS / 2 then a.avoid_x - dx else a.avoid_x
      avoid_y := if dist < NEIGHBOR_RADIUS / 2 then a.avoid_y - dy else a.avoid_y
      count := a.count + 1 }
  else a

/-- The normal-mode velocity update of `update_boids`
(src/boids.c lines 262-297): scan the other boids, then, when any
neighbor was found, add the alignment, cohesion and separation terms to
the velocity.  Returns the new `(vx, vy)`. -/
def normal_flock_update (b : Boid) (others : List Boid) : ℝ × ℝ :=
  let a := others.foldl (normal_scan_step b) ⟨0, 0, 0, 0, 0, 0, 0⟩
  if 0 < a.count then
    let n : ℝ := (a.count : ℝ)
    (b.vx + (a.avg_vx / n - b.vx) * ALIGNMENT_WEIGHT
          + (a.center_x / n - b.x) * COHESION_WEIGHT
          + a.avoid_x * SEPARATION_WEIGHT,
     b.vy + (a.avg_vy / n - b.vy) * ALIGNMENT_WEIGHT
          + (a.center_y / n - b.y) * COHESION_WEIGHT
          + a.avoid_y * SEPARATION_WEIGHT)
  else (b.vx, b.vy)

/-- One coordinate of the toroidal wrap (src/boids.c lines 307-310):
`if (z < 0) z += dim; if (z >= dim) z -= dim;`. -/
def wrap_coord (z : ℝ) (dim : ℤ) : ℝ :=
  let z1 := if z < 0 then z + (dim : ℝ) else z
  if (dim : ℝ) ≤ z1 then z1 - (dim : ℝ) else z1

/-- The force phase of `update_boids`' outer loop for index `i`: the
normal-mode three-rule update over the other boids (those at a
different array position), or the pattern force.  `flock` is the
current state of the array (boids with smaller index already updated
this tick). -/
def force_phase (mode : FlockingMode) (pattern_time : ℝ) (width height : ℤ)
    (flock : List Boid) (i : ℕ) : Boid :=
  let b := flock.getD i default
  if mode = FlockingMode.normal then
    let others := (flock.enum.filter (fun p => p.1 ≠ i)).map Prod.snd
    let v := normal_flock_update b others
    { b with vx := v.1, vy := v.2 }
  else apply_pattern_force b mode pattern_time width height flock

/-- The body of `update_boids`' outer loop for index `i`: force phase,
speed clamp, position integration and toroidal wrap. -/
def update_one (mode : FlockingMode) (pattern_time : ℝ) (width height : ℤ)
    (flock : List Boid) (i : ℕ) : Boid :=
  let b2 := limit_speed (force_phase mode pattern_time width height flock i)
  { b2 with
      x := wrap_coord (b2.x + b2.vx) width,
      y := wrap_coord (b2.y + b2.vy) height }

/-- `update_boids`: sequentially update each boid in index order, in
place, then advance `pattern_time` by `0.01` when a pattern mode is
active.  Returns the updated flock and the new `pattern_time`. -/
def update_boids (mode : FlockingMode) (pattern_time : ℝ) (width height : ℤ)
    (flock : List Boid) : List Boid × ℝ :=
  ((List.range flock.length).foldl
      (fun acc i => acc.set i (update_one mode pattern_time width height acc i))
      flock,
   if mode ≠ FlockingMode.normal then pattern_time + 0.01 else pattern_time)

/-! ## Pattern scheduler (src/boids.c lines 232-257) -/

/-- The scheduler's process-wide state: `current_mode`, `pattern_time`,
`last_mode_change` and `last_pattern_mode`. -/
structure SchedState where
  current_mode : FlockingMode
  pattern_time : ℝ
  last_mode_change : ℤ
  last_pattern_mode : FlockingMode

/-- The C cast `(FlockingMode)n` for the values `(rand() % 8) + 1`
produced in `get_next_pattern_mode`; enum values in source order. -/
def mode_of_code : ℕ → FlockingMode
  | 1 => FlockingMode.lissajous
  | 2 => FlockingMode.rose
  | 3 => FlockingMode.hypocycloid
  | 4 => FlockingMode.butterfly
  | 5 => FlockingMode.maurer_rose
  | 6 => FlockingMode.spirograph
  | 7 => FlockingMode.fermat_spiral
  | 8 => FlockingMode.cardioid
  | _ => FlockingMode.normal

/-- `get_next_pattern_mode`: draw `(rand() % 8) + 1` until the result
differs from `last`; the successive `rand()` results are the `draws`
list, consumed left to right.  Returns the chosen mode and the
remaining draws, or `none` when the list is exhausted (modelling the
`do`/`while` loop never terminating on an all-equal random stream).
The caller's `last_pattern_mode := next_mode` assignment is performed
by `check_auto_mode_timing` below. -/
def get_next_pattern_mode : List ℕ → FlockingMode → Option (FlockingMode × List ℕ)
  | [], _ => none
  | r :: rest, last =>
      let next := mode_of_code (r % 8 + 1)
      if next = last then get_next_pattern_mode rest last else some (next, rest)

/-- `check_auto_mode_timing`: when auto mode is on, compare
`now - last_mode_change` against the dwell times and transition
`Normal → Pattern(k)` (k freshly drawn) or `Pattern → Normal`,
resetting `pattern_time` and recording `now`.  `none` models a
nonterminating pattern draw. -/
def check_auto_mode_timing (auto_mode : Bool) (now : ℤ) (draws : List ℕ)
    (s : SchedState) : Option (SchedState × List ℕ) :=
  if auto_mode = false then some (s, draws)
  else
    let elapsed := now - s.last_mode_change
    if s.current_mode = FlockingMode.normal ∧ BOIDS_TIME ≤ elapsed then
      match get_next_pattern_mode draws s.last_pattern_mode with
      | none => none
      | some (m, rest) =>
          some ({ current_mode := m, pattern_time := 0,
                  last_mode_change := now, last_pattern_mode := m }, rest)
    else if s.current_mode ≠ FlockingMode.normal ∧ PATTERN_TIME ≤ elapsed then
      some ({ s with current_mode := FlockingMode.normal, pattern_time := 0,
                     last_mode_change := now }, draws)
    else some (s, draws)

/-! ## Keyboard input (src/boids.c lines 384-433) -/

/-- The key symbols the event loop's `switch` distinguishes (each C
case covers the lower- and upper-case symbol); `other` is any other
key, which falls through the `switch` with no effect. -/
inductive KeyInput where
  | key_l
  | key_r
  | key_y
  | key_b
  | key_m
  | key_s
  | key_f
  | key_c
  | key_n
  | other
deriving DecidableEq

/-- The key that toggles a given pattern mode (`key_n`, the reset key,
for `MODE_NORMAL`). -/
def pattern_key : FlockingMode → KeyInput
  | FlockingMode.normal => KeyInput.key_n
  | FlockingMode.lissajous => KeyInput.key_l
  | FlockingMode.rose => KeyInput.key_r
  | FlockingMode.hypocycloid => KeyInput.key_y
  | FlockingMode.butterfly => KeyInput.key_b
  | FlockingMode.maurer_rose => KeyInput.key_m
  | FlockingMode.spirograph => KeyInput.key_s
  | FlockingMode.fermat_spiral => KeyInput.key_f
  | FlockingMode.cardioid => KeyInput.key_c

/-- The `KeyPress` `switch` of the main loop: each pattern key toggles
between its pattern and `MODE_NORMAL`, `n` forces `MODE_NORMAL`, and
every handled key resets `pattern_time` to 0. -/
def handle_key (k : KeyInput) (s : SchedState) : SchedState :=
  match k with
  | KeyInput.key_l =>
      let m := if s.current_mode = FlockingMode.lissajous then FlockingMode.normal
               else FlockingMode.lissajous
      { s with current_mode := m, pattern_time := 0 }
  | KeyInput.key_r =>
      let m := if s.current_mode = FlockingMode.rose then FlockingMode.normal
               else FlockingMode.rose
      { s with current_mode := m, pattern_time := 0 }
  | KeyInput.key_y =>
      let m := if s.current_mode = FlockingMode.hypocycloid then FlockingMode.normal
               else FlockingMode.hypocycloid
      { s with current_mode := m, pattern_time := 0 }
  | KeyInput.key_b =>
      let m := if s.current_mode = FlockingMode.butterfly then FlockingMode.normal
               else FlockingMode.butterfly
      { s with current_mode := m, pattern_time := 0 }
  | KeyInput.key_m =>
      let m := if s.current_mode = FlockingMode.maurer_rose then FlockingMode.normal
               else FlockingMode.maurer_rose
      { s with current_mode := m, pattern_time := 0 }
  | KeyInput.key_s =>
      let m := if s.current_mode = FlockingMode.spirograph then FlockingMode.normal
               else FlockingMode.spirograph
      { s with current_mode := m, pattern_time := 0 }
  | KeyInput.key_f =>
      let m := if s.current_mode = FlockingMode.fermat_spiral then FlockingMode.normal
               else FlockingMode.fermat_spiral
      { s with current_mode := m, pattern_time := 0 }
  | KeyInput.key_c =>
      let m := if s.current_mode = FlockingMode.cardioid then FlockingMode.normal
               else FlockingMode.cardioid
      { s with current_mode := m, pattern_time := 0 }
  | KeyInput.key_n =>
      { s with current_mode := FlockingMode.normal, pattern_time := 0 }
  | KeyInput.other => s

/-- A `KeyPress` event as seen by the main loop: the handler runs only
when auto mode is off (`e.type == KeyPress && !auto_mode`). -/
def handle_key_event (auto_mode : Bool) (k : KeyInput) (s : SchedState) : SchedState :=
  if auto_mode then s else handle_key k s

/-! ## One frame of the main loop (src/boids.c lines 371-458) -/

/-- The whole process-wide simulation state. -/
structure World where
  flock : List Boid
  sched : SchedState

/-- One iteration of the main loop, display calls elided: drain the
pending key events, run `check_auto_mode_timing`, then `update_boids`
with the resulting mode and pattern clock. -/
def frame_step (auto_mode : Bool) (keys : List KeyInput) (now : ℤ)
    (draws : List ℕ) (width height : ℤ) (w : World) : Option (World × List ℕ) :=
  let s1 := keys.foldl (fun s k => handle_key_event auto_mode k s) w.sched
  match check_auto_mode_timing auto_mode now draws s1 with
  | none => none
  | some (s2, rest) =>
      let r := update_boids s2.current_mode s2.pattern_time width height w.flock
      some ({ flock := r.1, sched := { s2 with pattern_time := r.2 } }, rest)

/-! ## Reference (spec-side) definitions

These definitions follow the words of the specification, for
comparison with the source-translated definitions above. -/

/-- The agents at distance `d` from `b` with `0 < d < NEIGHBOR_RADIUS`
(the claim's reference neighbor set). -/
def spec_neighbors (b : Boid) (others : List Boid) : List Boid :=
  others.filter (fun o => 0 < distf b o ∧ distf b o < NEIGHBOR_RADIUS)

/-- Among the neighbors, those at distance `d < NEIGHBOR_RADIUS / 2`
(the claim's reference separation set). -/
def spec_separation_set (b : Boid) (others : List Boid) : List Boid :=
  (spec_neighbors b others).filter (fun o => distf b o < NEIGHBOR_RADIUS / 2)

/-- The reference three-rule flocking velocity update, written from the
claim's words: accumulate neighbor velocity and position, and for
near neighbors the negative relative offset; when the neighbor count is
positive add the three weighted terms, otherwise leave the velocity
unchanged. -/
def spec_flock_update (b : Boid) (others : List Boid) : ℝ × ℝ :=
  let nb := spec_neighbors b others
  let sep := spec_separation_set b others
  if 0 < nb.length then
    let n : ℝ := (nb.length : ℝ)
    (b.vx + ((nb.map Boid.vx).sum / n - b.vx) * ALIGNMENT_WEIGHT
          + ((nb.map Boid.x).sum / n - b.x) * COHESION_WEIGHT
          + ((sep.map (fun o => -(o.x - b.x))).sum) * SEPARATION_WEIGHT,
     b.vy + ((nb.map Boid.vy).sum / n - b.vy) * ALIGNMENT_WEIGHT
          + ((nb.map Boid.y).sum / n - b.y) * COHESION_WEIGHT
          + ((sep.map (fun o => -(o.y - b.y))).sum) * SEPARATION_WEIGHT)
  else (b.vx, b.vy)

/-- The toroidal position invariant `0 ≤ x < width ∧ 0 ≤ y < height`. -/
def in_bounds (width height : ℤ) (b : Boid) : Prop :=
  0 ≤ b.x ∧ b.x < (width : ℝ) ∧ 0 ≤ b.y ∧ b.y < (height : ℝ)

/-- A boid at rest at the origin, used as a concrete test fixture. -/
def b0 : Boid := ⟨0, 0, 0, 0, 0, 0, 0⟩

/-- A boid one unit inside a tiny viewport, moving left at full speed,
used as a concrete test fixture. -/
def bneg : Boid := ⟨1, 1, -4, 0, 0, 0, 0⟩

/-- Scheduler state at startup of an auto-mode run whose last
transition timestamp is 0: `MODE_NORMAL`, pattern clock 0,
`last_pattern_mode = MODE_LISSAJOUS`. -/
def sched0 : SchedState :=
  ⟨FlockingMode.normal, 0, 0, FlockingMode.lissajous⟩

/-- The state after the first auto transition of the `sched0` run at
t = 30 with draw `1` (`1 % 8 + 1 = 2`, `MODE_ROSE`). -/
def sched1 : SchedState :=
  ⟨FlockingMode.rose, 0, 30, FlockingMode.rose⟩

/-- The state after the second auto transition of that run, at t = 65. -/
def sched2 : SchedState :=
  ⟨FlockingMode.normal, 0, 65, FlockingMode.rose⟩

/-! ## Helper lemmas -/

theorem speed_nonneg (vx vy : ℝ) : 0 ≤ speed vx vy := Real.sqrt_nonneg _

theorem sum_sq_nonneg (vx vy : ℝ) : 0 ≤ vx * vx + vy * vy :=
  add_nonneg (mul_self_nonneg vx) (mul_self_nonneg vy)

theorem speed_mul_self (vx vy : ℝ) : speed vx vy * speed vx vy = vx * vx + vy * vy :=
  Real.mul_self_sqrt (sum_sq_nonneg vx vy)

theorem sqrt_sixteen : Real.sqrt 16 = 4 := by
  rw [show (16 : ℝ) = 4 ^ 2 by norm_num, Real.sqrt_sq (by norm_num : (0:ℝ) ≤ 4)]

theorem MAX_SPEED_pos : (0 : ℝ) < MAX_SPEED := by norm_num [MAX_SPEED]

/-- Unfolding lemma for `limit_speed`. -/
theorem limit_speed_eq (b : Boid) :
    limit_speed b =
      if MAX_SPEED < speed b.vx b.vy then
        { b with vx := b.vx / speed b.vx b.vy * MAX_SPEED,
                 vy := b.vy / speed b.vx b.vy * MAX_SPEED }
      else b := rfl

/-- `limit_speed` leaves position, target and index unchanged. -/
theorem limit_speed_pos (b : Boid) :
    (limit_speed b).x = b.x ∧ (limit_speed b).y = b.y ∧
    (limit_speed b).index = b.index := by
  rw [limit_speed_eq]
  split <;> simp

/-- If the speed is already within the bound, `limit_speed` is the
identity. -/
theorem limit_speed_eq_of_le (b : Boid) (h : speed b.vx b.vy ≤ MAX_SPEED) :
    limit_speed b = b := by
  rw [limit_speed_eq, if_neg (not_lt.mpr h)]

/-- After `limit_speed` the speed is at most `MAX_SPEED`. -/
theorem limit_speed_speed_le (b : Boid) :
    speed (limit_speed b).vx (limit_speed b).vy ≤ MAX_SPEED := by
  rw [limit_speed_eq]
  by_cases h : MAX_SPEED < speed b.vx b.vy
  · rw [if_pos h]
    have hs0 : (0 : ℝ) < speed b.vx b.vy := lt_trans MAX_SPEED_pos h
    set s := speed b.vx b.vy with hs
    have hss : s * s = b.vx * b.vx + b.vy * b.vy := speed_mul_self b.vx b.vy
    have hsum : b.vx / s * MAX_SPEED * (b.vx / s * MAX_SPEED)
        + b.vy / s * MAX_SPEED * (b.vy / s * MAX_SPEED) = MAX_SPEED * MAX_SPEED := by
      have hne : s ≠ 0 := ne_of_gt hs0
      field_simp
      nlinarith [hss]
    show Real.sqrt (b.vx / s * MAX_SPEED * (b.vx / s * MAX_SPEED)
        + b.vy / s * MAX_SPEED * (b.vy / s * MAX_SPEED)) ≤ MAX_SPEED
    rw [hsum, Real.sqrt_mul_self (le_of_lt MAX_SPEED_pos)]
  · rw [if_neg h]
    exact not_lt.mp h

/-- `limit_speed` never increases the speed. -/
theorem limit_speed_le_speed (b : Boid) :
    speed (limit_speed b).vx (limit_speed b).vy ≤ speed b.vx b.vy := by
  by_cases h : MAX_SPEED < speed b.vx b.vy
  · exact le_trans (limit_speed_speed_le b) (le_of_lt h)
  · rw [limit_speed_eq_of_le b (not_lt.mp h)]

/-- `limit_speed` rescales the velocity by a factor in `(0, 1]`:
direction preserved, magnitude only ever scaled down. -/
theorem limit_speed_scales (b : Boid) :
    ∃ c : ℝ, 0 < c ∧ c ≤ 1 ∧
      (limit_speed b).vx = c * b.vx ∧ (limit_speed b).vy = c * b.vy := by
  rw [limit_speed_eq]
  by_cases h : MAX_SPEED < speed b.vx b.vy
  · rw [if_pos h]
    have hs0 : (0 : ℝ) < speed b.vx b.vy := lt_trans MAX_SPEED_pos h
    refine ⟨MAX_SPEED / speed b.vx b.vy, div_pos MAX_SPEED_pos hs0, ?_, ?_, ?_⟩
    · rw [div_le_one hs0]
      exact le_of_lt h
    · show b.vx / speed b.vx b.vy * MAX_SPEED = MAX_SPEED / speed b.vx b.vy * b.vx
      ring
    · show b.vy / speed b.vx b.vy * MAX_SPEED = MAX_SPEED / speed b.vx b.vy * b.vy
      ring
  · rw [if_neg h]
    exact ⟨1, by norm_num, le_refl 1, by simp, by simp⟩

/-- `limit_speed` is idempotent. -/
theorem limit_speed_idem (b : Boid) :
    limit_speed (limit_speed b) = limit_speed b :=
  limit_speed_eq_of_le _ (limit_speed_speed_le b)

/-- Each boid written by `update_one` carries a clamped velocity. -/
theorem update_one_speed_le (mode : FlockingMode) (pt : ℝ) (w h : ℤ)
    (flock : List Boid) (i : ℕ) :
    speed (update_one mode pt w h flock i).vx (update_one mode pt w h flock i).vy
      ≤ MAX_SPEED := by
  have : (update_one mode pt w h flock i).vx
      = (limit_speed (force_phase mode pt w h flock i)).vx := rfl
  rw [this]
  have : (update_one mode pt w h flock i).vy
      = (limit_speed (force_phase mode pt w h flock i)).vy := rfl
  rw [this]
  exact limit_speed_speed_le _

/-- The in-place update loop preserves the length of the flock. -/
theorem foldl_set_length (f : List Boid → ℕ → Boid) (idxs : List ℕ)
    (l : List Boid) :
    (idxs.foldl (fun acc i => acc.set i (f acc i)) l).length = l.length := by
  induction idxs generalizing l with
  | nil => rfl
  | cons j js ih => simp only [List.foldl_cons, ih, List.length_set]

/-- Characterization of the in-place update loop over `List.range n`:
position `i < n` of the result holds `f acc i` for the intermediate
array `acc` that was current when index `i` was processed. -/
theorem foldl_range_set_get (f : List Boid → ℕ → Boid) (n : ℕ)
    (l : List Boid) : n ≤ l.length → ∀ i, i < n →
    ∃ acc : List Boid, acc.length = l.length ∧
      ((List.range n).foldl (fun a j => a.set j (f a j)) l)[i]? = some (f acc i) := by
  induction n with
  | zero => intro _ i hi; omega
  | succ m ih =>
    intro hn i hi
    rw [List.range_succ, List.foldl_append]
    simp only [List.foldl_cons, List.foldl_nil]
    have hlen : ((List.range m).foldl (fun a j => a.set j (f a j)) l).length
        = l.length := foldl_set_length f _ l
    by_cases him : i = m
    · subst him
      refine ⟨(List.range i).foldl (fun a j => a.set j (f a j)) l, hlen, ?_⟩
      apply List.getElem?_set_self
      omega
    · obtain ⟨acc, hacc, hget⟩ := ih (by omega) i (by omega)
      refine ⟨acc, hacc, ?_⟩
      rw [List.getElem?_set_ne (by omega)]
      exact hget

/-- Every member of the updated flock is the output of `update_one` on
some intermediate array. -/
theorem mem_update_boids (mode : FlockingMode) (pt : ℝ) (w h : ℤ)
    (flock : List Boid) (b : Boid)
    (hb : b ∈ (update_boids mode pt w h flock).1) :
    ∃ acc i, b = update_one mode pt w h acc i := by
  obtain ⟨i, hi, hget⟩ := List.getElem_of_mem hb
  have hi' : i < flock.length := by
    have := foldl_set_length (update_one mode pt w h) (List.range flock.length) flock
    simpa [update_boids, this] using hi
  obtain ⟨acc, hacc, hget'⟩ :=
    foldl_range_set_get (update_one mode pt w h) flock.length flock le_rfl i hi'
  refine ⟨acc, i, ?_⟩
  have : ((update_boids mode pt w h flock).1)[i]? = some b := by
    rw [List.getElem?_eq_getElem hi, hget]
  rw [show (update_boids mode pt w h flock).1
      = (List.range flock.length).foldl
          (fun a j => a.set j (update_one mode pt w h a j)) flock from rfl] at this
  rw [this] at hget'
  exact Option.some_inj.mp hget'

theorem sqrt_zero_sum : Real.sqrt ((0:ℝ)*0 + 0*0) = 0 := by norm_num

theorem b0_others_empty :
    (([b0].enum.filter (fun p => p.1 ≠ 0)).map Prod.snd) = [] := by
  simp [List.enum]

theorem b0_flock_update : normal_flock_update b0 [] = (0, 0) := by
  simp [normal_flock_update, b0]

theorem b0_force : force_phase FlockingMode.normal 0 8 8 [b0] 0 = b0 := by
  simp only [force_phase, List.getD, if_pos rfl, b0_others_empty]
  rw [show ([b0].get? 0).getD default = b0 from rfl]
  rw [b0_flock_update]
  show ({ b0 with vx := 0, vy := 0 } : Boid) = b0
  simp [b0]

theorem b0_limit : limit_speed b0 = b0 := by
  rw [limit_speed_eq, if_neg]
  rw [show b0.vx = 0 from rfl, show b0.vy = 0 from rfl]
  rw [speed, sqrt_zero_sum]
  norm_num [MAX_SPEED]

theorem b0_update_one : update_one FlockingMode.normal 0 8 8 [b0] 0 = b0 := by
  show { limit_speed (force_phase FlockingMode.normal 0 8 8 [b0] 0) with
      x := wrap_coord ((limit_speed (force_phase FlockingMode.normal 0 8 8 [b0] 0)).x
        + (limit_speed (force_phase FlockingMode.normal 0 8 8 [b0] 0)).vx) 8,
      y := wrap_coord ((limit_speed (force_phase FlockingMode.normal 0 8 8 [b0] 0)).y
        + (limit_speed (force_phase FlockingMode.normal 0 8 8 [b0] 0)).vy) 8 } = b0
  rw [b0_force, b0_limit]
  have hw : wrap_coord (b0.x + b0.vx) 8 = 0 := by
    rw [show b0.x = 0 from rfl, show b0.vx = 0 from rfl]
    norm_num [wrap_coord]
  have hw2 : wrap_coord (b0.y + b0.vy) 8 = 0 := by
    rw [show b0.y = 0 from rfl, show b0.vy = 0 from rfl]
    norm_num [wrap_coord]
  rw [hw, hw2]
  simp [b0]

theorem b0_update : update_boids FlockingMode.normal 0 8 8 [b0] = ([b0], 0) := by
  show (((List.range 1).foldl (fun acc i => acc.set i
      (update_one FlockingMode.normal 0 8 8 acc i)) [b0]),
    if FlockingMode.normal ≠ FlockingMode.normal then (0:ℝ) + 0.01 else 0) = ([b0], 0)
  rw [show List.range 1 = [0] from rfl]
  simp only [List.foldl_cons, List.foldl_nil, List.set]
  rw [b0_update_one]
  simp

/-! ## Claim C1 -/

/-- C1: For every agent and every tick, in both Normal and pattern
modes, the velocity magnitude after the tick's `update_boids` update
satisfies `‖v‖ ≤ MAX_SPEED`; the clamp in `limit_speed` preserves the
velocity's direction (it rescales by a positive factor `c ≤ 1`), only
scales the magnitude down when it exceeds `MAX_SPEED` (never up:
identity when already within the bound, speed never increased), and is
idempotent. -/
theorem speed_invariant_and_clamp :
    (∀ (mode : FlockingMode) (pt : ℝ) (w h : ℤ) (flock : List Boid) (b : Boid),
        b ∈ (update_boids mode pt w h flock).1 → speed b.vx b.vy ≤ MAX_SPEED)
    ∧ (∀ b : Boid, speed (limit_speed b).vx (limit_speed b).vy ≤ speed b.vx b.vy)
    ∧ (∀ b : Boid, ∃ c : ℝ, 0 < c ∧ c ≤ 1 ∧
        (limit_speed b).vx = c * b.vx ∧ (limit_speed b).vy = c * b.vy)
    ∧ (∀ b : Boid, speed b.vx b.vy ≤ MAX_SPEED → limit_speed b = b)
    ∧ (∀ b : Boid, limit_speed (limit_speed b) = limit_speed b) := by
  refine ⟨?_, limit_speed_le_speed, limit_speed_scales, limit_speed_eq_of_le,
    limit_speed_idem⟩
  intro mode pt w h flock b hb
  obtain ⟨acc, i, rfl⟩ := mem_update_boids mode pt w h flock b hb
  exact update_one_speed_le mode pt w h acc i

/-- Witness for `speed_invariant_and_clamp`: the membership hypothesis
discharged at a concrete one-boid flock. -/
theorem speed_invariant_and_clamp_witness :
    b0 ∈ (update_boids FlockingMode.normal 0 8 8 [b0]).1 ∧
    speed b0.vx b0.vy ≤ MAX_SPEED :=
  have hmem : b0 ∈ (update_boids FlockingMode.normal 0 8 8 [b0]).1 := by
    rw [b0_update]
    exact List.mem_singleton_self b0
  ⟨hmem, speed_invariant_and_clamp.1 FlockingMode.normal 0 8 8 [b0] b0 hmem⟩

theorem abs_comp_le_of_speed_le (vx vy : ℝ) (h : speed vx vy ≤ MAX_SPEED) :
    |vx| ≤ MAX_SPEED ∧ |vy| ≤ MAX_SPEED := by
  constructor
  · have h1 : Real.sqrt (vx * vx) ≤ speed vx vy :=
      Real.sqrt_le_sqrt (le_add_of_nonneg_right (mul_self_nonneg vy))
    rw [Real.sqrt_mul_self_eq_abs] at h1
    exact le_trans h1 h
  · have h1 : Real.sqrt (vy * vy) ≤ speed vx vy := by
      apply Real.sqrt_le_sqrt
      nlinarith [mul_self_nonneg vx]
    rw [Real.sqrt_mul_self_eq_abs] at h1
    exact le_trans h1 h

/-- The single-wrap correction restores the bound, provided the
viewport dimension is at least `MAX_SPEED`. -/
theorem wrap_coord_bounds (x v : ℝ) (dim : ℤ) (hx0 : 0 ≤ x)
    (hxd : x < (dim : ℝ)) (hv : |v| ≤ MAX_SPEED) (hd : MAX_SPEED ≤ (dim : ℝ)) :
    0 ≤ wrap_coord (x + v) dim ∧ wrap_coord (x + v) dim < (dim : ℝ) := by
  obtain ⟨hv1, hv2⟩ := abs_le.mp hv
  have hM : (0:ℝ) < MAX_SPEED := MAX_SPEED_pos
  simp only [wrap_coord]
  split_ifs with h1 h2 h3 <;> constructor <;> linarith

theorem apply_separation_force_position (b : Boid) (w : ℝ) (flock : List Boid) :
    (apply_separation_force b w flock).x = b.x ∧
    (apply_separation_force b w flock).y = b.y := by
  simp only [apply_separation_force]
  split <;> simp

theorem apply_pattern_force_position (b : Boid) (mode : FlockingMode)
    (pt : ℝ) (w h : ℤ) (flock : List Boid) :
    (apply_pattern_force b mode pt w h flock).x = b.x ∧
    (apply_pattern_force b mode pt w h flock).y = b.y := by
  simp only [apply_pattern_force]
  cases hpt : pattern_target mode ((b.index : ℝ) / (NUM_BOIDS : ℝ) * 10.0 + pt) w h with
  | none => simp
  | some target =>
      simp only
      split
      · constructor
        · exact (apply_separation_force_position _ _ _).1
        · exact (apply_separation_force_position _ _ _).2
      · constructor
        · exact (apply_separation_force_position _ _ _).1
        · exact (apply_separation_force_position _ _ _).2

theorem force_phase_position (mode : FlockingMode) (pt : ℝ) (w h : ℤ)
    (flock : List Boid) (i : ℕ) :
    (force_phase mode pt w h flock i).x = (flock.getD i default).x ∧
    (force_phase mode pt w h flock i).y = (flock.getD i default).y := by
  simp only [force_phase]
  split
  · simp
  · exact apply_pattern_force_position _ _ _ _ _ _

theorem update_one_in_bounds (mode : FlockingMode) (pt : ℝ) (w h : ℤ)
    (flock : List Boid) (i : ℕ) (hw : MAX_SPEED ≤ (w : ℝ))
    (hh : MAX_SPEED ≤ (h : ℝ)) (hin : ∀ b ∈ flock, in_bounds w h b)
    (hi : i < flock.length) :
    in_bounds w h (update_one mode pt w h flock i) := by
  have hb : in_bounds w h (flock.getD i default) := by
    rw [List.getD_eq_getElem flock default hi]
    exact hin _ (List.getElem_mem hi)
  set b2 := limit_speed (force_phase mode pt w h flock i) with hb2
  have hx : b2.x = (flock.getD i default).x := by
    rw [hb2, (limit_speed_pos _).1, (force_phase_position mode pt w h flock i).1]
  have hy : b2.y = (flock.getD i default).y := by
    rw [hb2, (limit_speed_pos _).2.1, (force_phase_position mode pt w h flock i).2]
  have hv : speed b2.vx b2.vy ≤ MAX_SPEED := limit_speed_speed_le _
  obtain ⟨hvx, hvy⟩ := abs_comp_le_of_speed_le _ _ hv
  have hresx : (update_one mode pt w h flock i).x = wrap_coord (b2.x + b2.vx) w := rfl
  have hresy : (update_one mode pt w h flock i).y = wrap_coord (b2.y + b2.vy) h := rfl
  obtain ⟨hb1, hb2', hb3, hb4⟩ := hb
  have hxb := wrap_coord_bounds b2.x b2.vx w (by rw [hx]; exact hb1)
    (by rw [hx]; exact hb2') hvx hw
  have hyb := wrap_coord_bounds b2.y b2.vy h (by rw [hy]; exact hb3)
    (by rw [hy]; exact hb4) hvy hh
  exact ⟨by rw [hresx]; exact hxb.1, by rw [hresx]; exact hxb.2,
    by rw [hresy]; exact hyb.1, by rw [hresy]; exact hyb.2⟩

theorem foldl_set_in_bounds (mode : FlockingMode) (pt : ℝ) (w h : ℤ)
    (hw : MAX_SPEED ≤ (w : ℝ)) (hh : MAX_SPEED ≤ (h : ℝ)) :
    ∀ (idxs : List ℕ) (l : List Boid), (∀ b ∈ l, in_bounds w h b) →
      (∀ j ∈ idxs, j < l.length) →
      ∀ b ∈ idxs.foldl (fun acc i => acc.set i (update_one mode pt w h acc i)) l,
        in_bounds w h b := by
  intro idxs
  induction idxs with
  | nil => intro l hin _ b hb; exact hin b hb
  | cons j js ih =>
    intro l hin hidx b hb
    simp only [List.foldl_cons] at hb
    have hj : j < l.length := hidx j (List.mem_cons_self j js)
    refine ih (l.set j (update_one mode pt w h l j)) ?_ ?_ b hb
    · intro b' hb'
      rcases List.mem_or_eq_of_mem_set hb' with hmem | heq
      · exact hin b' hmem
      · rw [heq]
        exact update_one_in_bounds mode pt w h l j hw hh hin hj
    · intro j' hj'
      rw [List.length_set]
      exact hidx j' (List.mem_cons_of_mem j hj')

theorem update_boids_in_bounds (mode : FlockingMode) (pt : ℝ) (w h : ℤ)
    (flock : List Boid) (hw : MAX_SPEED ≤ (w : ℝ)) (hh : MAX_SPEED ≤ (h : ℝ))
    (hin : ∀ b ∈ flock, in_bounds w h b) :
    ∀ b ∈ (update_boids mode pt w h flock).1, in_bounds w h b := by
  intro b hb
  refine foldl_set_in_bounds mode pt w h hw hh (List.range flock.length) flock hin
    (fun j hj => List.mem_range.mp hj) b hb

theorem single_others_empty (b : Boid) :
    (([b].enum.filter (fun p => p.1 ≠ 0)).map Prod.snd) = [] := by
  simp [List.enum]

theorem single_flock_update (b : Boid) : normal_flock_update b [] = (b.vx, b.vy) := by
  simp [normal_flock_update]

theorem single_force (pt : ℝ) (w h : ℤ) (b : Boid) :
    force_phase FlockingMode.normal pt w h [b] 0 = b := by
  simp only [force_phase, List.getD, if_pos rfl, single_others_empty]
  rw [show ([b].get? 0).getD default = b from rfl]
  rw [single_flock_update]
  simp

theorem update_one_single (pt : ℝ) (w h : ℤ) (b : Boid) :
    update_one FlockingMode.normal pt w h [b] 0 =
      { limit_speed b with
          x := wrap_coord (b.x + (limit_speed b).vx) w,
          y := wrap_coord (b.y + (limit_speed b).vy) h } := by
  show { limit_speed (force_phase FlockingMode.normal pt w h [b] 0) with
      x := wrap_coord ((limit_speed (force_phase FlockingMode.normal pt w h [b] 0)).x
        + (limit_speed (force_phase FlockingMode.normal pt w h [b] 0)).vx) w,
      y := wrap_coord ((limit_speed (force_phase FlockingMode.normal pt w h [b] 0)).y
        + (limit_speed (force_phase FlockingMode.normal pt w h [b] 0)).vy) h } = _
  rw [single_force, (limit_speed_pos b).1, (limit_speed_pos b).2.1]

theorem update_boids_single (pt : ℝ) (w h : ℤ) (b : Boid) :
    (update_boids FlockingMode.normal pt w h [b]).1 =
      [{ limit_speed b with
          x := wrap_coord (b.x + (limit_speed b).vx) w,
          y := wrap_coord (b.y + (limit_speed b).vy) h }] := by
  show (List.range 1).foldl (fun acc i => acc.set i
      (update_one FlockingMode.normal pt w h acc i)) [b] = _
  rw [show List.range 1 = [0] from rfl]
  simp only [List.foldl_cons, List.foldl_nil, List.set]
  rw [update_one_single]

theorem bneg_limit : limit_speed bneg = bneg := by
  apply limit_speed_eq_of_le
  show Real.sqrt ((-4) * (-4) + 0 * 0) ≤ MAX_SPEED
  rw [show ((-4:ℝ)) * (-4) + 0 * 0 = 16 by norm_num, sqrt_sixteen, MAX_SPEED]
  norm_num

theorem bneg_update :
    (update_boids FlockingMode.normal 0 2 2 [bneg]).1 = [⟨-1, 1, -4, 0, 0, 0, 0⟩] := by
  rw [update_boids_single, bneg_limit]
  have h1 : wrap_coord (bneg.x + bneg.vx) 2 = -1 := by
    show wrap_coord ((1:ℝ) + -4) 2 = -1
    norm_num [wrap_coord]
  have h2 : wrap_coord (bneg.y + bneg.vy) 2 = 1 := by
    show wrap_coord ((1:ℝ) + 0) 2 = 1
    norm_num [wrap_coord]
  rw [h1, h2]
  rfl

/-! ## Claim C2 -/

/-- C2 (amended): after every tick of `update_boids` every boid
position satisfies `0 ≤ x < width` and `0 ≤ y < height`, given that
every boid was in bounds before the tick and that both viewport
dimensions are at least `MAX_SPEED` (the post-clamp velocity components
are at most `MAX_SPEED` in magnitude, so the single-wrap correction
restores the bound). -/
theorem toroidal_wrap_invariant (mode : FlockingMode) (pt : ℝ) (w h : ℤ)
    (flock : List Boid) (hw : MAX_SPEED ≤ (w : ℝ)) (hh : MAX_SPEED ≤ (h : ℝ))
    (hin : ∀ b ∈ flock, in_bounds w h b) :
    ∀ b ∈ (update_boids mode pt w h flock).1, in_bounds w h b :=
  update_boids_in_bounds mode pt w h flock hw hh hin

/-- Witness for `toroidal_wrap_invariant` at a concrete flock. -/
theorem toroidal_wrap_invariant_witness :
    MAX_SPEED ≤ ((8 : ℤ) : ℝ) ∧ (∀ b ∈ [b0], in_bounds 8 8 b) ∧
    ∀ b ∈ (update_boids FlockingMode.normal 0 8 8 [b0]).1, in_bounds 8 8 b :=
  have hw : MAX_SPEED ≤ ((8 : ℤ) : ℝ) := by norm_num [MAX_SPEED]
  have hin : ∀ b ∈ [b0], in_bounds 8 8 b := by
    intro b hb
    rw [List.mem_singleton.mp hb]
    norm_num [in_bounds, b0]
  ⟨hw, hin, toroidal_wrap_invariant FlockingMode.normal 0 8 8 [b0] hw hw hin⟩

/-- Counterexample to C2 as stated: without a lower bound on the
viewport dimensions, a boid that starts in bounds and moves by at most
`MAX_SPEED` per component can land out of bounds after the single-wrap
correction (viewport 2×2, x = 1, vx = −4 gives x = −1). -/
theorem single_wrap_insufficient :
    in_bounds 2 2 bneg ∧ |bneg.vx| ≤ MAX_SPEED ∧ |bneg.vy| ≤ MAX_SPEED ∧
    ¬ (∀ b ∈ (update_boids FlockingMode.normal 0 2 2 [bneg]).1, in_bounds 2 2 b) := by
  refine ⟨by norm_num [in_bounds, bneg], by norm_num [bneg, MAX_SPEED],
    by norm_num [bneg, MAX_SPEED], ?_⟩
  intro hall
  have hmem : (⟨-1, 1, -4, 0, 0, 0, 0⟩ : Boid)
      ∈ (update_boids FlockingMode.normal 0 2 2 [bneg]).1 := by
    rw [bneg_update]
    exact List.mem_singleton_self _
  have hbad := hall _ hmem
  norm_num [in_bounds] at hbad

theorem spec_neighbors_cons_pos (b o : Boid) (rest : List Boid)
    (h : 0 < distf b o ∧ distf b o < NEIGHBOR_RADIUS) :
    spec_neighbors b (o :: rest) = o :: spec_neighbors b rest := by
  simp only [spec_neighbors, List.filter_cons]
  rw [if_pos (by simp only [decide_eq_true_eq]; exact h)]

theorem spec_neighbors_cons_neg (b o : Boid) (rest : List Boid)
    (h : ¬ (0 < distf b o ∧ distf b o < NEIGHBOR_RADIUS)) :
    spec_neighbors b (o :: rest) = spec_neighbors b rest := by
  simp only [spec_neighbors, List.filter_cons]
  rw [if_neg (by simp only [decide_eq_true_eq]; exact h)]

theorem spec_separation_cons_pos (b o : Boid) (rest : List Boid)
    (h : 0 < distf b o ∧ distf b o < NEIGHBOR_RADIUS)
    (h2 : distf b o < NEIGHBOR_RADIUS / 2) :
    spec_separation_set b (o :: rest) = o :: spec_separation_set b rest := by
  simp only [spec_separation_set, spec_neighbors_cons_pos b o rest h, List.filter_cons]
  rw [if_pos (by simp only [decide_eq_true_eq]; exact h2)]

theorem spec_separation_cons_far (b o : Boid) (rest : List Boid)
    (h : 0 < distf b o ∧ distf b o < NEIGHBOR_RADIUS)
    (h2 : ¬ distf b o < NEIGHBOR_RADIUS / 2) :
    spec_separation_set b (o :: rest) = spec_separation_set b rest := by
  simp only [spec_separation_set, spec_neighbors_cons_pos b o rest h, List.filter_cons]
  rw [if_neg (by simp only [decide_eq_true_eq]; exact h2)]

theorem spec_separation_cons_out (b o : Boid) (rest : List Boid)
    (h : ¬ (0 < distf b o ∧ distf b o < NEIGHBOR_RADIUS)) :
    spec_separation_set b (o :: rest) = spec_separation_set b rest := by
  simp only [spec_separation_set, spec_neighbors_cons_neg b o rest h]

theorem normal_scan_step_pos (b a o)
    (h : distf b o < NEIGHBOR_RADIUS ∧ 0 < distf b o) :
    normal_scan_step b a o =
      { avg_vx := a.avg_vx + o.vx
        avg_vy := a.avg_vy + o.vy
        center_x := a.center_x + o.x
        center_y := a.center_y + o.y
        avoid_x := if distf b o < NEIGHBOR_RADIUS / 2 then a.avoid_x - (o.x - b.x)
          else a.avoid_x
        avoid_y := if distf b o < NEIGHBOR_RADIUS / 2 then a.avoid_y - (o.y - b.y)
          else a.avoid_y
        count := a.count + 1 } := by
  simp only [normal_scan_step, distf] at *
  rw [if_pos h]

theorem normal_scan_step_neg (b a o)
    (h : ¬ (distf b o < NEIGHBOR_RADIUS ∧ 0 < distf b o)) :
    normal_scan_step b a o = a := by
  simp only [normal_scan_step, distf] at *
  rw [if_neg h]

theorem normal_scan_spec (b : Boid) :
    ∀ (others : List Boid) (a : NAcc),
      others.foldl (normal_scan_step b) a =
        { avg_vx := a.avg_vx + ((spec_neighbors b others).map Boid.vx).sum,
          avg_vy := a.avg_vy + ((spec_neighbors b others).map Boid.vy).sum,
          center_x := a.center_x + ((spec_neighbors b others).map Boid.x).sum,
          center_y := a.center_y + ((spec_neighbors b others).map Boid.y).sum,
          avoid_x := a.avoid_x
            + ((spec_separation_set b others).map (fun o => -(o.x - b.x))).sum,
          avoid_y := a.avoid_y
            + ((spec_separation_set b others).map (fun o => -(o.y - b.y))).sum,
          count := a.count + (spec_neighbors b others).length } := by
  intro others
  induction others with
  | nil =>
    intro a
    simp [spec_neighbors, spec_separation_set]
  | cons o rest ih =>
    intro a
    simp only [List.foldl_cons]
    rw [ih]
    by_cases h1 : distf b o < NEIGHBOR_RADIUS ∧ 0 < distf b o
    · have hmem : 0 < distf b o ∧ distf b o < NEIGHBOR_RADIUS := ⟨h1.2, h1.1⟩
      rw [normal_scan_step_pos b a o h1, spec_neighbors_cons_pos b o rest hmem]
      by_cases h2 : distf b o < NEIGHBOR_RADIUS / 2
      · rw [spec_separation_cons_pos b o rest hmem h2]
        simp only [if_pos h2, List.map_cons, List.sum_cons, List.length_cons,
          NAcc.mk.injEq]
        refine ⟨by ring, by ring, by ring, by ring, by linarith, by linarith, by omega⟩
      · rw [spec_separation_cons_far b o rest hmem h2]
        simp only [if_neg h2, List.map_cons, List.sum_cons, List.length_cons,
          NAcc.mk.injEq]
        refine ⟨by ring, by ring, by ring, by ring, trivial, trivial, by omega⟩
    · have hmem : ¬ (0 < distf b o ∧ distf b o < NEIGHBOR_RADIUS) := fun hc => h1 ⟨hc.2, hc.1⟩
      rw [normal_scan_step_neg b a o h1, spec_neighbors_cons_neg b o rest hmem,
        spec_separation_cons_out b o rest hmem]

/-! ## Claim C3 -/

/-- C3: In Normal mode the per-agent velocity update of `update_boids`
equals the reference three-rule flocking definition `spec_flock_update`
(accumulate velocity and position of the other agents at distance
`0 < d < NEIGHBOR_RADIUS`, the negative relative offsets of those at
`d < NEIGHBOR_RADIUS / 2`; with a positive neighbor count add the
alignment, cohesion and unaveraged separation terms, otherwise leave
the velocity unchanged); consequently the Normal-mode force phase
writes exactly that velocity. -/
theorem normal_update_equals_reference :
    (∀ (b : Boid) (others : List Boid),
        normal_flock_update b others = spec_flock_update b others)
    ∧ (∀ (pt : ℝ) (w h : ℤ) (flock : List Boid) (i : ℕ),
        force_phase FlockingMode.normal pt w h flock i =
          { flock.getD i default with
              vx := (spec_flock_update (flock.getD i default)
                ((flock.enum.filter (fun p => p.1 ≠ i)).map Prod.snd)).1,
              vy := (spec_flock_update (flock.getD i default)
                ((flock.enum.filter (fun p => p.1 ≠ i)).map Prod.snd)).2 }) := by
  have hmain : ∀ (b : Boid) (others : List Boid),
      normal_flock_update b others = spec_flock_update b others := by
    intro b others
    simp only [normal_flock_update, spec_flock_update]
    rw [normal_scan_spec b others ⟨0, 0, 0, 0, 0, 0, 0⟩]
    simp only [zero_add]
  refine ⟨hmain, ?_⟩
  intro pt w h flock i
  simp only [force_phase, if_pos rfl]
  rw [hmain]
  simp

/-! ## Claim C9 -/

/-- C9 (amended): the Lissajous curve at `t = 0` with viewport 800×600
returns `(400, 480)`: the scale is `min 800 600 · 0.3 = 180`, so
`x = 400 + 180·sin 0 = 400` and `y = 300 + 180·sin(π/2) = 480`. -/
theorem lissajous_at_zero :
    calculate_lissajous_position 0 800 600 = (400, 480) := by
  simp only [calculate_lissajous_position, get_scale_factor, PI]
  rw [show ((3:ℝ)) * 0 = 0 by ring, show ((2:ℝ)) * 0 + Real.pi / 2 = Real.pi / 2 by ring]
  rw [Real.sin_zero, Real.sin_pi_div_two]
  norm_num

/-- Counterexample to C9 as stated: the Lissajous curve at `t = 0` with
viewport 800×600 does not return `(400, 600)` (its y-coordinate is
`300 + 180 = 480`). -/
theorem lissajous_at_zero_ne :
    calculate_lissajous_position 0 800 600 ≠ (400, 600) := by
  rw [lissajous_at_zero]
  intro hcontra
  have := congrArg Prod.snd hcontra
  norm_num at this

theorem pattern_target_isSome (m : FlockingMode) (hm : m ≠ FlockingMode.normal)
    (t : ℝ) (w h : ℤ) : ∃ p : ℝ × ℝ, pattern_target m t w h = some p := by
  cases m <;> simp [pattern_target] at hm ⊢

theorem apply_pattern_force_of_target (b : Boid) (m : FlockingMode) (pt : ℝ)
    (w h : ℤ) (flock : List Boid) (p : ℝ × ℝ)
    (hp : pattern_target m ((b.index : ℝ) / (NUM_BOIDS : ℝ) * 10.0 + pt) w h = some p) :
    apply_pattern_force b m pt w h flock =
      apply_separation_force
        (if 0 < Real.sqrt ((p.1 - b.x) * (p.1 - b.x) + (p.2 - b.y) * (p.2 - b.y)) then
          { b with
              vx := b.vx + (p.1 - b.x)
                / Real.sqrt ((p.1 - b.x) * (p.1 - b.x) + (p.2 - b.y) * (p.2 - b.y))
                * PATTERN_FORCE,
              vy := b.vy + (p.2 - b.y)
                / Real.sqrt ((p.1 - b.x) * (p.1 - b.x) + (p.2 - b.y) * (p.2 - b.y))
                * PATTERN_FORCE }
        else b)
        PATTERN_SEPARATION_WEIGHT flock := by
  simp only [apply_pattern_force]
  rw [hp]

/-! ## Claim C4 -/

/-- C4: In every pattern mode the curve parameter for agent `A` is
`t = (A.index / NUM_BOIDS)·10 + pattern_time`, and the steering force
`(dx/dist)·PATTERN_FORCE, (dy/dist)·PATTERN_FORCE` is added to the
velocity exactly when the distance to the target is strictly positive;
when the distance is 0 the steering addition is skipped for the tick
(no division by the zero distance is performed). -/
theorem pattern_steering_guarded (m : FlockingMode)
    (hm : m ≠ FlockingMode.normal) (b : Boid) (pt : ℝ) (w h : ℤ)
    (flock : List Boid) :
    ∃ p : ℝ × ℝ,
      pattern_target m ((b.index : ℝ) / (NUM_BOIDS : ℝ) * 10.0 + pt) w h = some p ∧
      (Real.sqrt ((p.1 - b.x) * (p.1 - b.x) + (p.2 - b.y) * (p.2 - b.y)) = 0 →
        apply_pattern_force b m pt w h flock =
          apply_separation_force b PATTERN_SEPARATION_WEIGHT flock) ∧
      (0 < Real.sqrt ((p.1 - b.x) * (p.1 - b.x) + (p.2 - b.y) * (p.2 - b.y)) →
        apply_pattern_force b m pt w h flock =
          apply_separation_force
            { b with
                vx := b.vx + (p.1 - b.x)
                  / Real.sqrt ((p.1 - b.x) * (p.1 - b.x) + (p.2 - b.y) * (p.2 - b.y))
                  * PATTERN_FORCE,
                vy := b.vy + (p.2 - b.y)
                  / Real.sqrt ((p.1 - b.x) * (p.1 - b.x) + (p.2 - b.y) * (p.2 - b.y))
                  * PATTERN_FORCE }
            PATTERN_SEPARATION_WEIGHT flock) := by
  obtain ⟨p, hp⟩ := pattern_target_isSome m hm
    ((b.index : ℝ) / (NUM_BOIDS : ℝ) * 10.0 + pt) w h
  refine ⟨p, hp, ?_, ?_⟩
  · intro h0
    rw [apply_pattern_force_of_target b m pt w h flock p hp, if_neg]
    rw [h0]
    exact lt_irrefl 0
  · intro hpos
    rw [apply_pattern_force_of_target b m pt w h flock p hp, if_pos hpos]

/-- Witness for `pattern_steering_guarded`: the mode hypothesis
discharged at `MODE_LISSAJOUS` with a concrete agent. -/
theorem pattern_steering_guarded_witness :
    FlockingMode.lissajous ≠ FlockingMode.normal ∧
    ∃ p : ℝ × ℝ,
      pattern_target FlockingMode.lissajous
        ((b0.index : ℝ) / (NUM_BOIDS : ℝ) * 10.0 + 0) 800 600 = some p ∧
      (Real.sqrt ((p.1 - b0.x) * (p.1 - b0.x) + (p.2 - b0.y) * (p.2 - b0.y)) = 0 →
        apply_pattern_force b0 FlockingMode.lissajous 0 800 600 [] =
          apply_separation_force b0 PATTERN_SEPARATION_WEIGHT []) ∧
      (0 < Real.sqrt ((p.1 - b0.x) * (p.1 - b0.x) + (p.2 - b0.y) * (p.2 - b0.y)) →
        apply_pattern_force b0 FlockingMode.lissajous 0 800 600 [] =
          apply_separation_force
            { b0 with
                vx := b0.vx + (p.1 - b0.x)
                  / Real.sqrt ((p.1 - b0.x) * (p.1 - b0.x) + (p.2 - b0.y) * (p.2 - b0.y))
                  * PATTERN_FORCE,
                vy := b0.vy + (p.2 - b0.y)
                  / Real.sqrt ((p.1 - b0.x) * (p.1 - b0.x) + (p.2 - b0.y) * (p.2 - b0.y))
                  * PATTERN_FORCE }
            PATTERN_SEPARATION_WEIGHT []) :=
  ⟨by decide,
   pattern_steering_guarded FlockingMode.lissajous (by decide) b0 0 800 600 []⟩

/-! ## Scheduler and keyboard lemmas -/

theorem mode_of_code_ne_normal (r : ℕ) :
    mode_of_code (r % 8 + 1) ≠ FlockingMode.normal := by
  have h : r % 8 < 8 := Nat.mod_lt _ (by norm_num)
  interval_cases h : r % 8 <;> simp [mode_of_code]

theorem get_next_pattern_mode_spec :
    ∀ (draws : List ℕ) (last m : FlockingMode) (rest : List ℕ),
      get_next_pattern_mode draws last = some (m, rest) →
      m ≠ last ∧ m ≠ FlockingMode.normal := by
  intro draws
  induction draws with
  | nil =>
    intro last m rest h
    simp [get_next_pattern_mode] at h
  | cons r rs ih =>
    intro last m rest h
    simp only [get_next_pattern_mode] at h
    by_cases heq : mode_of_code (r % 8 + 1) = last
    · rw [if_pos heq] at h
      exact ih last m rest h
    · rw [if_neg heq] at h
      have hm : mode_of_code (r % 8 + 1) = m := by
        have := Option.some_inj.mp h
        exact congrArg Prod.fst this
      rw [← hm]
      exact ⟨heq, mode_of_code_ne_normal r⟩

theorem check_auto_transition_to_pattern (s : SchedState) (now : ℤ)
    (draws : List ℕ) (m : FlockingMode) (rest : List ℕ)
    (hmode : s.current_mode = FlockingMode.normal)
    (helapsed : BOIDS_TIME ≤ now - s.last_mode_change)
    (hdraw : get_next_pattern_mode draws s.last_pattern_mode = some (m, rest)) :
    check_auto_mode_timing true now draws s =
      some ({ current_mode := m, pattern_time := 0,
              last_mode_change := now, last_pattern_mode := m }, rest) ∧
    m ≠ FlockingMode.normal := by
  constructor
  · simp only [check_auto_mode_timing]
    rw [if_neg (by simp), if_pos ⟨hmode, helapsed⟩, hdraw]
  · exact (get_next_pattern_mode_spec draws s.last_pattern_mode m rest hdraw).2

theorem check_auto_transition_to_normal (s : SchedState) (now : ℤ)
    (draws : List ℕ)
    (hmode : s.current_mode ≠ FlockingMode.normal)
    (helapsed : PATTERN_TIME ≤ now - s.last_mode_change) :
    check_auto_mode_timing true now draws s =
      some ({ s with current_mode := FlockingMode.normal, pattern_time := 0,
                     last_mode_change := now }, draws) := by
  simp only [check_auto_mode_timing]
  rw [if_neg (by simp), if_neg (by intro hc; exact hmode hc.1), if_pos ⟨hmode, helapsed⟩]

theorem check_auto_no_transition_normal (s : SchedState) (now : ℤ)
    (draws : List ℕ)
    (hmode : s.current_mode = FlockingMode.normal)
    (helapsed : now - s.last_mode_change < BOIDS_TIME) :
    check_auto_mode_timing true now draws s = some (s, draws) := by
  simp only [check_auto_mode_timing]
  rw [if_neg (by simp), if_neg (by intro hc; omega),
    if_neg (by intro hc; exact hc.1 hmode)]

theorem check_auto_no_transition_pattern (s : SchedState) (now : ℤ)
    (draws : List ℕ)
    (hmode : s.current_mode ≠ FlockingMode.normal)
    (helapsed : now - s.last_mode_change < PATTERN_TIME) :
    check_auto_mode_timing true now draws s = some (s, draws) := by
  simp only [check_auto_mode_timing]
  rw [if_neg (by simp), if_neg (by intro hc; exact hmode hc.1),
    if_neg (by intro hc; omega)]

theorem draw_one_gives_rose :
    get_next_pattern_mode [1] FlockingMode.lissajous = some (FlockingMode.rose, []) := rfl

theorem sched0_step_30 :
    check_auto_mode_timing true 30 [1] sched0 = some (sched1, []) := by
  have hd : get_next_pattern_mode [1] sched0.last_pattern_mode
      = some (FlockingMode.rose, []) := draw_one_gives_rose
  have h := (check_auto_transition_to_pattern sched0 30 [1] FlockingMode.rose []
    rfl (by norm_num [sched0, BOIDS_TIME]) hd).1
  rw [h]
  rfl

theorem sched1_step_65 :
    check_auto_mode_timing true 65 [] sched1 = some (sched2, []) := by
  have h := check_auto_transition_to_normal sched1 65 []
    (by simp [sched1]) (by norm_num [sched1, PATTERN_TIME])
  rw [h]
  rfl

theorem auto_transition_chars :
    ∀ (s : SchedState) (now : ℤ) (draws : List ℕ) (s' : SchedState) (rest : List ℕ),
      s.current_mode = FlockingMode.normal →
      check_auto_mode_timing true now draws s = some (s', rest) →
      s'.current_mode ≠ FlockingMode.normal →
      s'.current_mode ≠ s.last_pattern_mode ∧ s'.last_pattern_mode = s'.current_mode := by
  intro s now draws s' rest hmode hcheck hne
  simp only [check_auto_mode_timing] at hcheck
  rw [if_neg (by simp)] at hcheck
  by_cases hel : BOIDS_TIME ≤ now - s.last_mode_change
  · rw [if_pos ⟨hmode, hel⟩] at hcheck
    cases hd : get_next_pattern_mode draws s.last_pattern_mode with
    | none =>
      rw [hd] at hcheck
      simp at hcheck
    | some pr =>
      obtain ⟨m, rest'⟩ := pr
      rw [hd] at hcheck
      have hs' : SchedState.mk m 0 now m = s' :=
        congrArg Prod.fst (Option.some_inj.mp hcheck)
      have hspec := get_next_pattern_mode_spec draws s.last_pattern_mode m rest' hd
      rw [← hs']
      exact ⟨hspec.1, rfl⟩
  · rw [if_neg (fun hc => hel hc.2), if_neg (fun hc => hc.1 hmode)] at hcheck
    have hs' : s = s' := congrArg Prod.fst (Option.some_inj.mp hcheck)
    rw [← hs'] at hne
    exact absurd hmode hne

/-! ## Claim C6 -/

/-- C6: In auto mode every automatic transition out of Normal selects a
pattern mode (one of the 8 non-normal constructors) that differs from
the stored preceding auto-selected pattern, and records it as the new
`last_pattern_mode`; `get_next_pattern_mode` always returns a
non-normal mode different from its `last` argument, so two successive
successful draws never repeat a pattern. -/
theorem consecutive_auto_patterns_differ :
    (∀ (s : SchedState) (now : ℤ) (draws : List ℕ) (s' : SchedState) (rest : List ℕ),
        s.current_mode = FlockingMode.normal →
        check_auto_mode_timing true now draws s = some (s', rest) →
        s'.current_mode ≠ FlockingMode.normal →
        s'.current_mode ≠ s.last_pattern_mode ∧ s'.last_pattern_mode = s'.current_mode)
    ∧ (∀ (draws : List ℕ) (last m : FlockingMode) (rest : List ℕ),
        get_next_pattern_mode draws last = some (m, rest) →
        m ≠ last ∧ m ≠ FlockingMode.normal)
    ∧ (∀ (d1 d2 : List ℕ) (last k1 k2 : FlockingMode) (r1 r2 : List ℕ),
        get_next_pattern_mode d1 last = some (k1, r1) →
        get_next_pattern_mode d2 k1 = some (k2, r2) → k2 ≠ k1) := by
  refine ⟨auto_transition_chars, get_next_pattern_mode_spec, ?_⟩
  intro d1 d2 last k1 k2 r1 r2 h1 h2
  exact (get_next_pattern_mode_spec d2 k1 k2 r2 h2).1

theorem consecutive_auto_patterns_differ_witness :
    sched0.current_mode = FlockingMode.normal ∧
    check_auto_mode_timing true 30 [1] sched0 = some (sched1, []) ∧
    sched1.current_mode ≠ FlockingMode.normal ∧
    (sched1.current_mode ≠ sched0.last_pattern_mode ∧
      sched1.last_pattern_mode = sched1.current_mode) ∧
    get_next_pattern_mode [2] FlockingMode.rose = some (FlockingMode.hypocycloid, []) ∧
    FlockingMode.hypocycloid ≠ FlockingMode.rose :=
  ⟨rfl, sched0_step_30, by decide,
   consecutive_auto_patterns_differ.1 sched0 30 [1] sched1 [] rfl sched0_step_30
     (by decide),
   rfl,
   consecutive_auto_patterns_differ.2.2 [1] [2] FlockingMode.lissajous
     FlockingMode.rose FlockingMode.hypocycloid [] [] draw_one_gives_rose rfl⟩

/-! ## Claim C5 -/

/-- C5: With auto mode enabled and `BOIDS_TIME = 30`,
`PATTERN_TIME = 35`: a check in Normal mode with at least `BOIDS_TIME`
elapsed transitions to the freshly drawn pattern mode, and a check in a
pattern mode with at least `PATTERN_TIME` elapsed transitions back to
Normal; every transition sets the pattern clock to 0 and records the
check time.  Starting from Normal at t = 0, checks before t = 30 change
nothing, the first transition happens at t = 30, checks in (30, 65)
change nothing, and the transition back to Normal happens at t = 65. -/
theorem auto_mode_dwell_schedule :
    BOIDS_TIME = 30 ∧ PATTERN_TIME = 35
    ∧ (∀ (s : SchedState) (now : ℤ) (draws : List ℕ) (m : FlockingMode) (rest : List ℕ),
        s.current_mode = FlockingMode.normal →
        BOIDS_TIME ≤ now - s.last_mode_change →
        get_next_pattern_mode draws s.last_pattern_mode = some (m, rest) →
        check_auto_mode_timing true now draws s =
          some (SchedState.mk m 0 now m, rest) ∧ m ≠ FlockingMode.normal)
    ∧ (∀ (s : SchedState) (now : ℤ) (draws : List ℕ),
        s.current_mode ≠ FlockingMode.normal →
        PATTERN_TIME ≤ now - s.last_mode_change →
        check_auto_mode_timing true now draws s =
          some (SchedState.mk FlockingMode.normal 0 now s.last_pattern_mode, draws))
    ∧ (∀ t : ℤ, 0 ≤ t → t < 30 →
        check_auto_mode_timing true t [1] sched0 = some (sched0, [1]))
    ∧ check_auto_mode_timing true 30 [1] sched0 = some (sched1, [])
    ∧ (∀ t : ℤ, 30 ≤ t → t < 65 →
        check_auto_mode_timing true t [] sched1 = some (sched1, []))
    ∧ check_auto_mode_timing true 65 [] sched1 = some (sched2, []) := by
  refine ⟨rfl, rfl, ?_, ?_, ?_, sched0_step_30, ?_, sched1_step_65⟩
  · intro s now draws m rest hmode helapsed hdraw
    exact check_auto_transition_to_pattern s now draws m rest hmode helapsed hdraw
  · intro s now draws hmode helapsed
    exact check_auto_transition_to_normal s now draws hmode helapsed
  · intro t ht0 ht30
    exact check_auto_no_transition_normal sched0 t [1] rfl
      (by simp only [sched0, BOIDS_TIME]; omega)
  · intro t ht30 ht65
    exact check_auto_no_transition_pattern sched1 t [] (by decide)
      (by simp only [sched1, PATTERN_TIME]; omega)

theorem auto_mode_dwell_schedule_witness :
    sched0.current_mode = FlockingMode.normal ∧
    BOIDS_TIME ≤ 30 - sched0.last_mode_change ∧
    get_next_pattern_mode [1] sched0.last_pattern_mode = some (FlockingMode.rose, []) ∧
    (check_auto_mode_timing true 30 [1] sched0 =
        some (SchedState.mk FlockingMode.rose 0 30 FlockingMode.rose, [])
      ∧ FlockingMode.rose ≠ FlockingMode.normal) ∧
    sched1.current_mode ≠ FlockingMode.normal ∧
    PATTERN_TIME ≤ 65 - sched1.last_mode_change ∧
    check_auto_mode_timing true 65 [] sched1 =
      some (SchedState.mk FlockingMode.normal 0 65 sched1.last_pattern_mode, []) ∧
    (0 ≤ (15 : ℤ) ∧ (15 : ℤ) < 30 ∧
      check_auto_mode_timing true 15 [1] sched0 = some (sched0, [1])) :=
  ⟨rfl, by norm_num [sched0, BOIDS_TIME], draw_one_gives_rose,
   auto_mode_dwell_schedule.2.2.1 sched0 30 [1] FlockingMode.rose [] rfl
     (by norm_num [sched0, BOIDS_TIME]) draw_one_gives_rose,
   by decide, by norm_num [sched1, PATTERN_TIME],
   auto_mode_dwell_schedule.2.2.2.1 sched1 65 [] (by decide)
     (by norm_num [sched1, PATTERN_TIME]),
   by norm_num, by norm_num,
   auto_mode_dwell_schedule.2.2.2.2.1 15 (by norm_num) (by norm_num)⟩

/-! ## Claim C10 -/

/-- C10: `last_pattern_mode` is initialised to `MODE_LISSAJOUS`, and
`get_next_pattern_mode` always returns a (non-normal) pattern different
from the `last_pattern_mode` at entry, so the very first auto-selected
pattern of a run is never Lissajous even though no preceding
auto-selected pattern exists. -/
theorem first_auto_pattern_avoids_initial :
    initial_last_pattern_mode = FlockingMode.lissajous ∧
    ∀ (draws : List ℕ) (m : FlockingMode) (rest : List ℕ),
      get_next_pattern_mode draws initial_last_pattern_mode = some (m, rest) →
      m ≠ FlockingMode.lissajous ∧ m ≠ FlockingMode.normal := by
  refine ⟨rfl, ?_⟩
  intro draws m rest h
  have hs := get_next_pattern_mode_spec draws initial_last_pattern_mode m rest h
  exact ⟨hs.1, hs.2⟩

theorem first_auto_pattern_avoids_initial_witness :
    get_next_pattern_mode [1] initial_last_pattern_mode
      = some (FlockingMode.rose, []) ∧
    FlockingMode.rose ≠ FlockingMode.lissajous ∧
    FlockingMode.rose ≠ FlockingMode.normal :=
  ⟨draw_one_gives_rose,
   first_auto_pattern_avoids_initial.2 [1] FlockingMode.rose [] draw_one_gives_rose⟩

/-! ## Claim C7 -/

/-- C7 (amended): in manual mode, toggling pattern k twice in
succession yields exactly Normal from every starting state whose mode
is not already Pattern(k) (starting from Pattern(k) itself the double
toggle returns to Pattern(k)); a single toggle flips between Normal and
Pattern(k) and switches directly to Pattern(k) from any other pattern;
the reset key forces Normal; and the pattern clock is 0 immediately
after every such transition. -/
theorem manual_toggle_properties (s : SchedState) (m : FlockingMode)
    (hm : m ≠ FlockingMode.normal) :
    (s.current_mode ≠ m →
      (handle_key (pattern_key m) (handle_key (pattern_key m) s)).current_mode
        = FlockingMode.normal)
    ∧ (s.current_mode = FlockingMode.normal →
        (handle_key (pattern_key m) s).current_mode = m)
    ∧ (s.current_mode = m →
        (handle_key (pattern_key m) s).current_mode = FlockingMode.normal)
    ∧ (∀ m' : FlockingMode, m' ≠ m → s.current_mode = m' →
        (handle_key (pattern_key m) s).current_mode = m)
    ∧ (handle_key KeyInput.key_n s).current_mode = FlockingMode.normal
    ∧ (handle_key (pattern_key m) s).pattern_time = 0
    ∧ (handle_key KeyInput.key_n s).pattern_time = 0 := by
  cases m <;>
    first
      | exact absurd rfl hm
      | (refine ⟨fun hne => ?_, fun hcm => ?_, fun hcm => ?_,
          fun m' hne' hcm => ?_, rfl, rfl, rfl⟩ <;>
          simp [handle_key, pattern_key, *])

/-- Counterexample to C7 as stated: starting from `Pattern(k)` itself,
toggling k twice gives Normal and then `Pattern(k)` again, not
Normal. -/
theorem double_toggle_from_active_pattern :
    FlockingMode.lissajous ≠ FlockingMode.normal ∧
    (handle_key (pattern_key FlockingMode.lissajous)
      (handle_key (pattern_key FlockingMode.lissajous)
        ⟨FlockingMode.lissajous, 0, 0, FlockingMode.lissajous⟩)).current_mode
      = FlockingMode.lissajous := by
  exact ⟨by decide, rfl⟩

theorem manual_toggle_properties_witness :
    (sched0.current_mode ≠ FlockingMode.rose →
      (handle_key (pattern_key FlockingMode.rose)
        (handle_key (pattern_key FlockingMode.rose) sched0)).current_mode
        = FlockingMode.normal)
    ∧ (sched0.current_mode = FlockingMode.normal →
        (handle_key (pattern_key FlockingMode.rose) sched0).current_mode
          = FlockingMode.rose)
    ∧ (sched0.current_mode = FlockingMode.rose →
        (handle_key (pattern_key FlockingMode.rose) sched0).current_mode
          = FlockingMode.normal)
    ∧ (∀ m' : FlockingMode, m' ≠ FlockingMode.rose → sched0.current_mode = m' →
        (handle_key (pattern_key FlockingMode.rose) sched0).current_mode
          = FlockingMode.rose)
    ∧ (handle_key KeyInput.key_n sched0).current_mode = FlockingMode.normal
    ∧ (handle_key (pattern_key FlockingMode.rose) sched0).pattern_time = 0
    ∧ (handle_key KeyInput.key_n sched0).pattern_time = 0 :=
  manual_toggle_properties sched0 FlockingMode.rose (by decide)

theorem keys_ignored_fold (keys : List KeyInput) (s : SchedState) :
    keys.foldl (fun s k => handle_key_event true k s) s = s := by
  induction keys generalizing s with
  | nil => rfl
  | cons k ks ih =>
    rw [List.foldl_cons, show handle_key_event true k s = s from rfl]
    exact ih s

/-! ## Claim C8 -/

/-- C8: With auto mode enabled, key input has no effect: draining any
list of key-press events leaves the scheduler state unchanged, so two
frames that differ only in the delivered key-press sequences produce
identical worlds (mode, pattern clock and agent states). -/
theorem auto_mode_noninterference :
    (∀ (keys : List KeyInput) (s : SchedState),
        keys.foldl (fun s k => handle_key_event true k s) s = s)
    ∧ ∀ (keys1 keys2 : List KeyInput) (now : ℤ) (draws : List ℕ)
        (w h : ℤ) (world : World),
        frame_step true keys1 now draws w h world
          = frame_step true keys2 now draws w h world := by
  refine ⟨keys_ignored_fold, ?_⟩
  intro keys1 keys2 now draws w h world
  simp only [frame_step, keys_ignored_fold]
